import Mathlib

/-!
Shallow embedding of the `scoped-futures` crate (src/lib.rs) and proofs about it.

Modelling conventions:

* A Rust `Future` is modelled as a polling state machine `FutureImpl Ctx σ α`:
  `poll` consumes the current state of the future (type `σ`) and the execution
  context handed over by the executor (type `Ctx`, modelling
  `&mut core::task::Context`) and returns the updated future state, the
  (possibly updated) context, and `Poll.pending` or `Poll.ready v`.
  The context is threaded in state-passing style because Rust hands it to
  `poll` as a mutable reference.

* Rust lifetimes are modelled as scope durations (natural numbers):
  the outlives relation `x : y` of Rust is `y ≤ x` on durations.

* `ImpliedLifetimeBound<'upper_bound, 'subject>` is
  `PhantomData<&'subject &'upper_bound ()>`: a zero sized marker whose type is
  well-formed exactly when the reference type it mentions is, i.e. exactly when
  `upper_bound` outlives `subject`. It is modelled as a structure whose only
  field is that containment proof: it carries no runtime data, and the proof
  obligation is the compile-time check.

* `Pin<Box<dyn Future>>` style erased handles are modelled by `DynHandle σ`,
  which records the underlying future state together with the number of
  nested `Box::pin` delegation layers around it, so that conversions that
  re-box a handle (`Box::pin(future)`) are distinguishable from conversions
  that merely reinterpret it.

* Rust drop glue is modelled by `DropGlue σ ε`: the list of observable release
  events emitted when a value in state `σ` is dropped. `ScopedFutureWrapper`
  has no `Drop` impl, so its glue is the field-wise glue: the wrapped future
  first, then the `PhantomData` marker (which has none).
-/

/-- Result of one call to `poll`: the computation is still pending or has
completed with a value (Rust `core::task::Poll`). -/
inductive Poll (α : Type) where
  | pending : Poll α
  | ready : α → Poll α
deriving DecidableEq, Repr

/-- Returns `true` exactly on `Poll.ready` results. -/
def Poll.isReady {α : Type} : Poll α → Bool
  | .pending => false
  | .ready _ => true

/-- Shallow embedding of the `Future` trait for a state type `σ` with output
type `α`: a single polling step function, in state-passing style for both the
future state and the execution context. -/
structure FutureImpl (Ctx σ α : Type) where
  poll : σ → Ctx → σ × Ctx × Poll α

/-- Lifetimes are modelled as scope durations; `upper_bound` outlives
`subject` is `subject ≤ upper_bound`. The Rust type
`ImpliedLifetimeBound<'upper_bound, 'subject> = PhantomData<&'subject &'upper_bound ()>`
is well-formed exactly under that containment, and `PhantomData` holds no
runtime data, so the marker is a structure whose only field is the
containment proof. -/
structure ImpliedLifetimeBound (upper_bound subject : Nat) : Type where
  bound_ok : subject ≤ upper_bound

/-- The wrapper struct from src/lib.rs lines 99-103: it owns the wrapped
future plus the zero sized lifetime bound marker. -/
structure ScopedFutureWrapper (upper_bound subject : Nat) (Fut : Type) where
  future : Fut
  scope : ImpliedLifetimeBound upper_bound subject

variable {Ctx σ α ε : Type}

/-- The `Future` impl for `ScopedFutureWrapper` (src/lib.rs lines 127-132):
`Output = Fut::Output` and `poll(self, cx) = self.future().poll(cx)`, i.e.
polling the wrapper pin-projects the `future` field and polls it with the
context it was itself given. -/
def ScopedFutureWrapper.futureImpl (upper_bound subject : Nat)
    (F : FutureImpl Ctx σ α) :
    FutureImpl Ctx (ScopedFutureWrapper upper_bound subject σ) α where
  poll w cx :=
    let r := F.poll w.future cx
    ({ future := r.1, scope := w.scope }, r.2.1, r.2.2)

/-- `ScopedFutureExt::scoped` (src/lib.rs lines 135-137):
`ScopedFutureWrapper { future: self, scope: PhantomData }`. Constructing the
`PhantomData` marker at type `ImpliedLifetimeBound` demands the implied
compile-time containment `subject ≤ upper_bound`, passed here as `h`. -/
def ScopedFutureExt.scoped (upper_bound subject : Nat)
    (h : subject ≤ upper_bound) (fut : σ) :
    ScopedFutureWrapper upper_bound subject σ :=
  { future := fut, scope := ⟨h⟩ }

/-- An erased, pinned, heap-allocated handle to a future with underlying state
`σ` (the `Pin<Box<dyn Future>>` / `ScopedBoxFuture` shapes): the `base`
constructor is the first boxing of the concrete future, and each `boxed`
constructor is one additional `Box::pin` delegation layer produced by the
`From` conversions. -/
inductive DynHandle (σ : Type) where
  | base : σ → DynHandle σ
  | boxed : DynHandle σ → DynHandle σ
deriving DecidableEq, Repr

/-- Polling an erased handle: a `base` handle polls the underlying future,
and a `boxed` handle delegates to the handle inside it (the `Future` impl of
`Pin<Box<F>>` polls the pinned `F`). -/
def DynHandle.pollStep (F : FutureImpl Ctx σ α) :
    DynHandle σ → Ctx → DynHandle σ × Ctx × Poll α
  | .base st, cx =>
    let r := F.poll st cx
    (.base r.1, r.2.1, r.2.2)
  | .boxed h, cx =>
    let r := DynHandle.pollStep F h cx
    (.boxed r.1, r.2.1, r.2.2)

/-- The `Future` impl of an erased handle, packaged as a state machine. -/
def DynHandle.futureImpl (F : FutureImpl Ctx σ α) :
    FutureImpl Ctx (DynHandle σ) α where
  poll := DynHandle.pollStep F

/-- The future state underlying an erased handle, beneath every delegation
layer. -/
def DynHandle.underlying : DynHandle σ → σ
  | .base st => st
  | .boxed h => DynHandle.underlying h

/-- `ScopedFutureExt::scope_boxed` (src/lib.rs lines 140-145): `Box::pin(self)`,
the future moved into a pinned box and erased to
`dyn ScopedFuture + Send`; the `Send` and lifetime where-clauses are
compile-time side conditions with no runtime content. -/
def ScopedFutureExt.scope_boxed (fut : σ) : DynHandle σ :=
  .base fut

/-- `ScopedFutureExt::scope_boxed_local` (src/lib.rs lines 148-153):
`Box::pin(self)`, erased to `dyn ScopedFuture` without the `Send` bound. -/
def ScopedFutureExt.scope_boxed_local (fut : σ) : DynHandle σ :=
  .base fut

/-- `From<ScopedBoxFuture> for Pin<Box<dyn Future + Send>>` (src/lib.rs lines
206-210): `Box::pin(future)`, a fresh pinned box around the bounded handle. -/
def scopedBoxIntoDynPin (h : DynHandle σ) : DynHandle σ :=
  .boxed h

/-- `From<ScopedLocalBoxFuture> for Pin<Box<dyn Future>>` (src/lib.rs lines
212-216): `Box::pin(future)`. -/
def scopedLocalBoxIntoDynPin (h : DynHandle σ) : DynHandle σ :=
  .boxed h

/-- `From<Pin<Box<dyn Future + Send>>> for ScopedBoxFuture` (src/lib.rs lines
182-186): `Box::pin(future)`, a fresh pinned box around the unbounded
handle. -/
def dynPinIntoScopedBox (h : DynHandle σ) : DynHandle σ :=
  .boxed h

/-- `From<Pin<Box<dyn Future>>> for ScopedLocalBoxFuture` (src/lib.rs lines
188-192): `Box::pin(future)`. -/
def dynPinIntoScopedLocalBox (h : DynHandle σ) : DynHandle σ :=
  .boxed h

/-- `From<Box<dyn Future + Send>> for ScopedBoxFuture` (src/lib.rs lines
194-198): `Box::into_pin(future).into()`; `Box::into_pin` is a pure
reinterpretation of the same box, and `.into()` is the re-boxing conversion
above. -/
def boxDynIntoScopedBox (h : DynHandle σ) : DynHandle σ :=
  dynPinIntoScopedBox h

/-- `From<Box<dyn Future>> for ScopedLocalBoxFuture` (src/lib.rs lines
200-204): `Box::into_pin(future).into()`. -/
def boxDynIntoScopedLocalBox (h : DynHandle σ) : DynHandle σ :=
  dynPinIntoScopedLocalBox h

/-- The sealed marker trait `ScopedFuture` has no methods; its only impl is
the blanket impl on src/lib.rs line 83,
`impl ScopedFuture for Fut where upper_bound outlives subject and Fut lives
at least for subject`. A future whose captures live for `lifetime` implements
the trait at `(upper_bound, subject)` exactly when that impl applies. -/
def ScopedFutureHolds (upper_bound subject lifetime : Nat) : Prop :=
  subject ≤ upper_bound ∧ subject ≤ lifetime

/-- The sequence of poll results observed when resuming a future from state
`st` once per context in `cs`, in order. -/
def pollTrace (F : FutureImpl Ctx σ α) : σ → List Ctx → List (Poll α)
  | _, [] => []
  | st, c :: cs =>
    let r := F.poll st c
    r.2.2 :: pollTrace F r.1 cs

/-- The future state reached after resuming once per context in `cs`. -/
def pollFinal (F : FutureImpl Ctx σ α) : σ → List Ctx → σ
  | st, [] => st
  | st, c :: cs => pollFinal F (F.poll st c).1 cs

/-- Number of suspensions before completion in a poll trace: the index of the
first `ready` result, or `none` if the trace never completes. -/
def suspensionCount (t : List (Poll α)) : Option Nat :=
  t.findIdx? Poll.isReady

/-- Drive a future to completion with a constant context supply and a poll
budget: returns the final state and output, or `none` if the budget runs
out first. -/
def runToCompletion (F : FutureImpl Ctx σ α) (c : Ctx) :
    Nat → σ → Option (σ × α)
  | 0, _ => none
  | fuel + 1, st =>
    let r := F.poll st c
    match r.2.2 with
    | .ready v => some (r.1, v)
    | .pending => runToCompletion F c fuel r.1

/-- Rust drop glue for a state type: the observable release events emitted
when a value in that state is dropped. -/
def DropGlue (σ ε : Type) : Type :=
  σ → List ε

/-- `PhantomData` markers own nothing, so dropping them emits no events. -/
def ImpliedLifetimeBound.dropGlue (upper_bound subject : Nat) :
    DropGlue (ImpliedLifetimeBound upper_bound subject) ε :=
  fun _ => []

/-- `ScopedFutureWrapper` declares no `Drop` impl (src/lib.rs lines 99-103
derive only `Clone` and `Debug`), so dropping it runs the field drop glue in
declaration order: the wrapped future, then the marker. -/
def ScopedFutureWrapper.dropGlue (upper_bound subject : Nat)
    (g : DropGlue σ ε) :
    DropGlue (ScopedFutureWrapper upper_bound subject σ) ε :=
  fun w => g w.future ++ ImpliedLifetimeBound.dropGlue upper_bound subject w.scope

/-- The derived `Clone` for `ScopedFutureWrapper` (src/lib.rs line 99):
field-wise clone, given the wrapped future type clone; `PhantomData` clones
to itself. -/
def ScopedFutureWrapper.clone (upper_bound subject : Nat)
    (cloneFut : σ → σ) (w : ScopedFutureWrapper upper_bound subject σ) :
    ScopedFutureWrapper upper_bound subject σ :=
  { future := cloneFut w.future, scope := w.scope }

/-- A probe future that records, in its state, every execution context it is
handed, and never completes. -/
def ctxRecorder (Ctx α : Type) : FutureImpl Ctx (List Ctx) α where
  poll st c := (st ++ [c], c, .pending)

/-- The `increment-and-return` computation of the crate doc example
(src/lib.rs lines 45-52): an async block that increments the counter and
immediately returns `Ok("ok")` or `Err("err")` according to the flag; it has
no await point, so it completes on its first poll. The state is the
counter. -/
def incrementAndReturn (isOk : Bool) : FutureImpl Unit Nat (Except String String) where
  poll count c :=
    (count + 1, c, .ready (if isOk then .ok "ok" else .error "err"))

/-- Run a schedule of polls over a pair of independent future values of the
same machine: each schedule entry names a side (`true` = first copy) and the
context to poll it with, and the run records which side produced each poll
result. -/
def pairPollRun (F : FutureImpl Ctx σ α) :
    σ × σ → List (Bool × Ctx) → List (Bool × Poll α)
  | _, [] => []
  | p, (side, c) :: rest =>
    match side with
    | true =>
      let r := F.poll p.1 c
      (true, r.2.2) :: pairPollRun F (r.1, p.2) rest
    | false =>
      let r := F.poll p.2 c
      (false, r.2.2) :: pairPollRun F (p.1, r.1) rest

/-- The poll results one side observed during a tagged run. -/
def sideResults (side : Bool) : List (Bool × Poll α) → List (Poll α)
  | [] => []
  | (s, r) :: rest =>
    if s = side then r :: sideResults side rest else sideResults side rest

/-- The contexts a schedule hands to one side, in order. -/
def sideCtxs (side : Bool) : List (Bool × Ctx) → List Ctx
  | [] => []
  | (s, c) :: rest =>
    if s = side then c :: sideCtxs side rest else sideCtxs side rest

section Lemmas

/-- Polling a wrapper any number of times yields exactly the poll results of
the wrapped future from the same starting state. -/
lemma pollTrace_wrapper (upper_bound subject : Nat) (F : FutureImpl Ctx σ α)
    (w : ScopedFutureWrapper upper_bound subject σ) (cs : List Ctx) :
    pollTrace (ScopedFutureWrapper.futureImpl upper_bound subject F) w cs
      = pollTrace F w.future cs := by
  induction cs generalizing w with
  | nil => rfl
  | cons c cs ih =>
    show (F.poll w.future c).2.2
          :: pollTrace (ScopedFutureWrapper.futureImpl upper_bound subject F)
              { future := (F.poll w.future c).1, scope := w.scope } cs
        = (F.poll w.future c).2.2 :: pollTrace F (F.poll w.future c).1 cs
    rw [ih]

/-- The wrapper state after any number of polls is the wrapped future state
after the same polls, with the marker untouched. -/
lemma pollFinal_wrapper (upper_bound subject : Nat) (F : FutureImpl Ctx σ α)
    (w : ScopedFutureWrapper upper_bound subject σ) (cs : List Ctx) :
    pollFinal (ScopedFutureWrapper.futureImpl upper_bound subject F) w cs
      = { future := pollFinal F w.future cs, scope := w.scope } := by
  induction cs generalizing w with
  | nil => rfl
  | cons c cs ih =>
    show pollFinal (ScopedFutureWrapper.futureImpl upper_bound subject F)
          { future := (F.poll w.future c).1, scope := w.scope } cs
        = { future := pollFinal F (F.poll w.future c).1 cs, scope := w.scope }
    rw [ih]

/-- Polling a freshly boxed future yields exactly the poll results of the
future itself. -/
lemma pollTrace_dynHandle_base (F : FutureImpl Ctx σ α) (st : σ) (cs : List Ctx) :
    pollTrace (DynHandle.futureImpl F) (DynHandle.base st) cs
      = pollTrace F st cs := by
  induction cs generalizing st with
  | nil => rfl
  | cons c cs ih =>
    show (F.poll st c).2.2
          :: pollTrace (DynHandle.futureImpl F) (DynHandle.base (F.poll st c).1) cs
        = (F.poll st c).2.2 :: pollTrace F (F.poll st c).1 cs
    rw [ih]

/-- An extra pinned-box delegation layer does not change the poll results of
an erased handle. -/
lemma pollTrace_dynHandle_boxed (F : FutureImpl Ctx σ α) (h : DynHandle σ)
    (cs : List Ctx) :
    pollTrace (DynHandle.futureImpl F) (DynHandle.boxed h) cs
      = pollTrace (DynHandle.futureImpl F) h cs := by
  induction cs generalizing h with
  | nil => rfl
  | cons c cs ih =>
    show (DynHandle.pollStep F h c).2.2
          :: pollTrace (DynHandle.futureImpl F)
              (DynHandle.boxed (DynHandle.pollStep F h c).1) cs
        = (DynHandle.pollStep F h c).2.2
          :: pollTrace (DynHandle.futureImpl F) (DynHandle.pollStep F h c).1 cs
    rw [ih]

/-- The recorder probe accumulates exactly the contexts it is polled with. -/
lemma pollFinal_ctxRecorder (β : Type) (st : List Ctx) (cs : List Ctx) :
    pollFinal (ctxRecorder Ctx β) st cs = st ++ cs := by
  induction cs generalizing st with
  | nil => simp [pollFinal]
  | cons c cs ih =>
    show pollFinal (ctxRecorder Ctx β) (st ++ [c]) cs = st ++ c :: cs
    rw [ih]
    simp

/-- Scheduling-independence, second copy: in any interleaved run over a pair
of future values, the second copy observes exactly the poll results it would
observe when run alone on the contexts the schedule hands it. -/
lemma pairPollRun_sideResults_false (F : FutureImpl Ctx σ α) (a b : σ)
    (sched : List (Bool × Ctx)) :
    sideResults false (pairPollRun F (a, b) sched)
      = pollTrace F b (sideCtxs false sched) := by
  induction sched generalizing a b with
  | nil => rfl
  | cons e rest ih =>
    obtain ⟨side, c⟩ := e
    cases side with
    | true => simp [pairPollRun, sideResults, sideCtxs, ih]
    | false => simp [pairPollRun, sideResults, sideCtxs, pollTrace, ih]

/-- Scheduling-independence, first copy. -/
lemma pairPollRun_sideResults_true (F : FutureImpl Ctx σ α) (a b : σ)
    (sched : List (Bool × Ctx)) :
    sideResults true (pairPollRun F (a, b) sched)
      = pollTrace F a (sideCtxs true sched) := by
  induction sched generalizing a b with
  | nil => rfl
  | cons e rest ih =>
    obtain ⟨side, c⟩ := e
    cases side with
    | true => simp [pairPollRun, sideResults, sideCtxs, pollTrace, ih]
    | false => simp [pairPollRun, sideResults, sideCtxs, ih]

end Lemmas

/-- C1: for every deferred computation, polling the wrapper obtained via
`scoped` yields the exact same sequence of pending/completed results, in the
same order, as polling the computation directly; in particular the number of
suspensions before completion is identical, so the wrapper introduces no
extra suspension points. -/
theorem scoped_preserves_poll_trace (upper_bound subject : Nat)
    (h : subject ≤ upper_bound) (F : FutureImpl Ctx σ α) (fut : σ)
    (cs : List Ctx) :
    pollTrace (ScopedFutureWrapper.futureImpl upper_bound subject F)
        (ScopedFutureExt.scoped upper_bound subject h fut) cs
      = pollTrace F fut cs
    ∧ suspensionCount
        (pollTrace (ScopedFutureWrapper.futureImpl upper_bound subject F)
          (ScopedFutureExt.scoped upper_bound subject h fut) cs)
      = suspensionCount (pollTrace F fut cs) := by
  have key : pollTrace (ScopedFutureWrapper.futureImpl upper_bound subject F)
      (ScopedFutureExt.scoped upper_bound subject h fut) cs = pollTrace F fut cs :=
    pollTrace_wrapper upper_bound subject F _ cs
  exact ⟨key, by rw [key]⟩

/-- Witness for C1 at a concrete input. -/
theorem scoped_preserves_poll_trace_witness :
    (0 : Nat) ≤ 1
    ∧ (pollTrace (ScopedFutureWrapper.futureImpl 1 0 (incrementAndReturn true))
          (ScopedFutureExt.scoped 1 0 (Nat.zero_le 1) 3) [(), ()]
        = pollTrace (incrementAndReturn true) 3 [(), ()]
      ∧ suspensionCount
          (pollTrace (ScopedFutureWrapper.futureImpl 1 0 (incrementAndReturn true))
            (ScopedFutureExt.scoped 1 0 (Nat.zero_le 1) 3) [(), ()])
        = suspensionCount (pollTrace (incrementAndReturn true) 3 [(), ()])) :=
  ⟨Nat.zero_le 1,
    scoped_preserves_poll_trace 1 0 (Nat.zero_le 1) (incrementAndReturn true) 3 [(), ()]⟩

/-- C2: boxing with `scope_boxed`, converting the bounded boxed handle to the
unbounded `Pin<Box<dyn Future + Send>>` handle, then converting back, yields
a handle whose resumption behavior (the whole sequence of poll results) is
indistinguishable from the original boxed handle at every polling schedule. -/
theorem scope_boxed_round_trip (F : FutureImpl Ctx σ α) (fut : σ)
    (cs : List Ctx) :
    pollTrace (DynHandle.futureImpl F)
        (dynPinIntoScopedBox (scopedBoxIntoDynPin (ScopedFutureExt.scope_boxed fut))) cs
      = pollTrace (DynHandle.futureImpl F) (ScopedFutureExt.scope_boxed fut) cs := by
  show pollTrace (DynHandle.futureImpl F)
      (DynHandle.boxed (DynHandle.boxed (DynHandle.base fut))) cs
    = pollTrace (DynHandle.futureImpl F) (DynHandle.base fut) cs
  rw [pollTrace_dynHandle_boxed, pollTrace_dynHandle_boxed]

/-- C3 counterexample: the conversion from the bounded boxed handle to the
unbounded one is not a pure reinterpretation of the handle: it wraps the
handle in a fresh pinned box (`Box::pin(future)`), so the resulting handle is
not the handle it was given. -/
theorem scopedBox_conversion_reboxes :
    scopedBoxIntoDynPin (DynHandle.base ()) ≠ DynHandle.base () := by
  decide

/-- C3 amended: every conversion between bounded and unbounded boxed handles
is lossless: it preserves the resumption behavior at every polling schedule
and never copies or transforms the underlying computation, though the
dyn-to-dyn conversions add a pinned-box delegation layer rather than
reinterpreting the handle in place. -/
theorem boxed_conversions_lossless (F : FutureImpl Ctx σ α) (h : DynHandle σ)
    (cs : List Ctx) :
    (pollTrace (DynHandle.futureImpl F) (scopedBoxIntoDynPin h) cs
        = pollTrace (DynHandle.futureImpl F) h cs
      ∧ pollTrace (DynHandle.futureImpl F) (scopedLocalBoxIntoDynPin h) cs
        = pollTrace (DynHandle.futureImpl F) h cs
      ∧ pollTrace (DynHandle.futureImpl F) (dynPinIntoScopedBox h) cs
        = pollTrace (DynHandle.futureImpl F) h cs
      ∧ pollTrace (DynHandle.futureImpl F) (dynPinIntoScopedLocalBox h) cs
        = pollTrace (DynHandle.futureImpl F) h cs
      ∧ pollTrace (DynHandle.futureImpl F) (boxDynIntoScopedBox h) cs
        = pollTrace (DynHandle.futureImpl F) h cs
      ∧ pollTrace (DynHandle.futureImpl F) (boxDynIntoScopedLocalBox h) cs
        = pollTrace (DynHandle.futureImpl F) h cs)
    ∧ ((scopedBoxIntoDynPin h).underlying = h.underlying
      ∧ (scopedLocalBoxIntoDynPin h).underlying = h.underlying
      ∧ (dynPinIntoScopedBox h).underlying = h.underlying
      ∧ (dynPinIntoScopedLocalBox h).underlying = h.underlying
      ∧ (boxDynIntoScopedBox h).underlying = h.underlying
      ∧ (boxDynIntoScopedLocalBox h).underlying = h.underlying) := by
  have t := pollTrace_dynHandle_boxed F h cs
  exact ⟨⟨t, t, t, t, t, t⟩, rfl, rfl, rfl, rfl, rfl, rfl⟩

/-- C4: a lifetime bound marker (and hence a wrapper containing one) can be
constructed exactly when the subject region is contained in the upper-bound
region; an invalid pair admits no marker value at all, rather than a runtime
error value. -/
theorem bound_construction_iff (upper_bound subject : Nat) (Fut : Type) :
    (Nonempty (ImpliedLifetimeBound upper_bound subject) ↔ subject ≤ upper_bound)
    ∧ (Nonempty (ScopedFutureWrapper upper_bound subject Fut)
        ↔ (Nonempty Fut ∧ subject ≤ upper_bound)) := by
  constructor
  · exact ⟨fun b => b.elim fun b => b.bound_ok, fun hh => ⟨⟨hh⟩⟩⟩
  · constructor
    · exact fun w => w.elim fun w => ⟨⟨w.future⟩, w.scope.bound_ok⟩
    · rintro ⟨⟨f⟩, hh⟩
      exact ⟨⟨f, ⟨hh⟩⟩⟩

/-- C5: the wrapper resumption output type equals the wrapped computation
output type (both machines produce `Poll α` for the same `α`), and every
output or failure value the wrapped computation produces passes through the
wrapper unchanged, at a single poll and along every polling schedule. -/
theorem wrapper_output_passthrough (upper_bound subject : Nat)
    (F : FutureImpl Ctx σ α) (w : ScopedFutureWrapper upper_bound subject σ)
    (cx : Ctx) (cs : List Ctx) :
    ((ScopedFutureWrapper.futureImpl upper_bound subject F).poll w cx).2.2
        = (F.poll w.future cx).2.2
    ∧ pollTrace (ScopedFutureWrapper.futureImpl upper_bound subject F) w cs
        = pollTrace F w.future cs :=
  ⟨rfl, pollTrace_wrapper upper_bound subject F w cs⟩

/-- C6: on every resumption call the wrapper hands the wrapped computation
exactly the execution context it was given and returns the resulting context
unmodified; in particular a probe future, wrapped and polled through any
schedule of contexts, records exactly the externally supplied contexts in
order. -/
theorem wrapper_propagates_context (upper_bound subject : Nat)
    (h : subject ≤ upper_bound) (F : FutureImpl Ctx σ α)
    (w : ScopedFutureWrapper upper_bound subject σ) (cx : Ctx)
    (cs : List Ctx) :
    ((ScopedFutureWrapper.futureImpl upper_bound subject F).poll w cx).2.1
        = (F.poll w.future cx).2.1
    ∧ (pollFinal (ScopedFutureWrapper.futureImpl upper_bound subject (ctxRecorder Ctx Unit))
          (ScopedFutureExt.scoped upper_bound subject h ([] : List Ctx)) cs).future
        = cs := by
  refine ⟨rfl, ?_⟩
  rw [pollFinal_wrapper]
  show pollFinal (ctxRecorder Ctx Unit) [] cs = cs
  rw [pollFinal_ctxRecorder]
  simp

/-- Witness for C6 at a concrete input. -/
theorem wrapper_propagates_context_witness :
    (0 : Nat) ≤ 1
    ∧ (((ScopedFutureWrapper.futureImpl 1 0 (ctxRecorder Nat Unit)).poll
            (ScopedFutureExt.scoped 1 0 (Nat.zero_le 1) [9]) 5).2.1
          = ((ctxRecorder Nat Unit).poll
              (ScopedFutureExt.scoped 1 0 (Nat.zero_le 1) [9]).future 5).2.1
      ∧ (pollFinal (ScopedFutureWrapper.futureImpl 1 0 (ctxRecorder Nat Unit))
            (ScopedFutureExt.scoped 1 0 (Nat.zero_le 1) ([] : List Nat)) [1, 2, 3]).future
          = [1, 2, 3]) :=
  ⟨Nat.zero_le 1,
    wrapper_propagates_context 1 0 (Nat.zero_le 1) (ctxRecorder Nat Unit)
      (ScopedFutureExt.scoped 1 0 (Nat.zero_le 1) [9]) 5 [1, 2, 3]⟩

/-- C7: dropping a wrapper at any point of its resumption, in particular
before the wrapped computation completes, emits exactly the release events of
dropping the wrapped computation at that same point: the wrapper adds no drop
behavior of its own. -/
theorem wrapper_drop_releases_inner (upper_bound subject : Nat)
    (h : subject ≤ upper_bound) (F : FutureImpl Ctx σ α) (g : DropGlue σ ε)
    (fut : σ) (cs : List Ctx) :
    ScopedFutureWrapper.dropGlue upper_bound subject g
        (pollFinal (ScopedFutureWrapper.futureImpl upper_bound subject F)
          (ScopedFutureExt.scoped upper_bound subject h fut) cs)
      = g (pollFinal F fut cs) := by
  rw [pollFinal_wrapper]
  show g (pollFinal F fut cs) ++ [] = g (pollFinal F fut cs)
  simp

/-- Witness for C7 at a concrete input. -/
theorem wrapper_drop_releases_inner_witness :
    (0 : Nat) ≤ 1
    ∧ ScopedFutureWrapper.dropGlue 1 0 (fun n => [n])
        (pollFinal (ScopedFutureWrapper.futureImpl 1 0 (incrementAndReturn true))
          (ScopedFutureExt.scoped 1 0 (Nat.zero_le 1) 0) [()])
      = (fun n => [n]) (pollFinal (incrementAndReturn true) 0 [()]) :=
  ⟨Nat.zero_le 1,
    wrapper_drop_releases_inner 1 0 (Nat.zero_le 1) (incrementAndReturn true)
      (fun n => [n]) 0 [()]⟩

/-- C8: the `increment-and-return` computation of the doc example, boxed with
`scope_boxed` and driven to completion, returns the same string and performs
the same single counter increment as the computation driven unwrapped. -/
theorem scope_boxed_doc_example (isOk : Bool) (count : Nat) :
    runToCompletion (DynHandle.futureImpl (incrementAndReturn isOk)) () 1
        (ScopedFutureExt.scope_boxed count)
      = some (DynHandle.base (count + 1),
          if isOk then Except.ok "ok" else Except.error "err")
    ∧ runToCompletion (incrementAndReturn isOk) () 1 count
      = some (count + 1, if isOk then Except.ok "ok" else Except.error "err") := by
  cases isOk <;> exact ⟨rfl, rfl⟩

/-- C9: the blanket impl makes every future living at least as long as the
subject region a `ScopedFuture` whenever the upper bound outlives the
subject, and `scope_boxed` / `scope_boxed_local` pin the original future in a
box with no wrapper layer, so polling the boxed handle is exactly polling the
original future. -/
theorem blanket_impl_and_scope_boxed_direct (upper_bound subject lifetime : Nat)
    (hb : subject ≤ upper_bound) (hl : subject ≤ lifetime)
    (F : FutureImpl Ctx σ α) (fut : σ) (cs : List Ctx) :
    ScopedFutureHolds upper_bound subject lifetime
    ∧ ScopedFutureExt.scope_boxed fut = DynHandle.base fut
    ∧ ScopedFutureExt.scope_boxed_local fut = DynHandle.base fut
    ∧ pollTrace (DynHandle.futureImpl F) (ScopedFutureExt.scope_boxed fut) cs
        = pollTrace F fut cs
    ∧ pollTrace (DynHandle.futureImpl F) (ScopedFutureExt.scope_boxed_local fut) cs
        = pollTrace F fut cs :=
  ⟨⟨hb, hl⟩, rfl, rfl,
    pollTrace_dynHandle_base F fut cs, pollTrace_dynHandle_base F fut cs⟩

/-- Witness for C9 at a concrete input. -/
theorem blanket_impl_and_scope_boxed_direct_witness :
    ((0 : Nat) ≤ 2 ∧ (0 : Nat) ≤ 1)
    ∧ (ScopedFutureHolds 2 0 1
      ∧ ScopedFutureExt.scope_boxed 7 = DynHandle.base 7
      ∧ ScopedFutureExt.scope_boxed_local 7 = DynHandle.base 7
      ∧ pollTrace (DynHandle.futureImpl (incrementAndReturn false))
            (ScopedFutureExt.scope_boxed 7) [()]
          = pollTrace (incrementAndReturn false) 7 [()]
      ∧ pollTrace (DynHandle.futureImpl (incrementAndReturn false))
            (ScopedFutureExt.scope_boxed_local 7) [()]
          = pollTrace (incrementAndReturn false) 7 [()]) :=
  ⟨⟨Nat.zero_le 2, Nat.zero_le 1⟩,
    blanket_impl_and_scope_boxed_direct 2 0 1 (Nat.zero_le 2) (Nat.zero_le 1)
      (incrementAndReturn false) 7 [()]⟩

/-- C10: the derived `Clone` duplicates a wrapper field-wise, so the
duplicate owns a clone of the wrapped future; and in any interleaved polling
schedule over the original and the duplicate, each copy observes exactly the
poll results it would observe when polled alone on its share of the contexts,
so polling one copy has no effect on the result sequence of the other. -/
theorem wrapper_clone_independent (upper_bound subject : Nat)
    (F : FutureImpl Ctx σ α) (cloneFut : σ → σ)
    (w : ScopedFutureWrapper upper_bound subject σ)
    (sched : List (Bool × Ctx)) :
    ScopedFutureWrapper.clone upper_bound subject cloneFut w
        = { future := cloneFut w.future, scope := w.scope }
    ∧ sideResults false
          (pairPollRun (ScopedFutureWrapper.futureImpl upper_bound subject F)
            (w, ScopedFutureWrapper.clone upper_bound subject cloneFut w) sched)
        = pollTrace (ScopedFutureWrapper.futureImpl upper_bound subject F)
            (ScopedFutureWrapper.clone upper_bound subject cloneFut w)
            (sideCtxs false sched)
    ∧ sideResults true
          (pairPollRun (ScopedFutureWrapper.futureImpl upper_bound subject F)
            (w, ScopedFutureWrapper.clone upper_bound subject cloneFut w) sched)
        = pollTrace (ScopedFutureWrapper.futureImpl upper_bound subject F) w
            (sideCtxs true sched) :=
  ⟨rfl,
    pairPollRun_sideResults_false (ScopedFutureWrapper.futureImpl upper_bound subject F)
      w (ScopedFutureWrapper.clone upper_bound subject cloneFut w) sched,
    pairPollRun_sideResults_true (ScopedFutureWrapper.futureImpl upper_bound subject F)
      w (ScopedFutureWrapper.clone upper_bound subject cloneFut w) sched⟩
